import Mathlib

/-!
Shallow embedding of the JobPortal application (`jobs/models.py`, `jobs/forms.py`,
`jobs/views.py`): data model, form validation and the request handlers that the
verified properties talk about.  Database tables are lists of records; request
handlers are pure functions from a database state (plus the acting user and the
request data) to a result tag and the new database state.  Best-effort email
dispatch is modelled by an environment of booleans saying whether each attempted
`send_mail` call succeeds, and by an observable outcome per recipient.
-/

namespace JobPortal

/-- A user row (`auth.User`): only the fields the handlers read. -/
structure UserRec where
  id : Nat
  email : String
deriving DecidableEq, Repr

/-- `jobs.models.Profile`: one-to-one with a user. -/
structure Profile where
  user : Nat
  is_employer : Bool
  company_name : String
deriving DecidableEq, Repr

/-- `jobs.models.Job`. `created_at` is an abstract timestamp. -/
structure Job where
  id : Nat
  poster : Nat
  title : String
  company : String
  description : String
  location : String
  created_at : Nat
deriving DecidableEq, Repr

/-- `Application.STATUS_CHOICES`. -/
inductive AppStatus where
  | applied | review | shortlisted | accepted | rejected | withdrawn
deriving DecidableEq, Repr

/-- `jobs.models.Application`.  `resumeName` is the stored file path. -/
structure Application where
  id : Nat
  job : Nat
  applicant : Nat
  resumeName : String
  cover_letter : String
  status : AppStatus
  applied_at : Nat
  updated_at : Nat
deriving DecidableEq, Repr

/-- `Interview.MODE_CHOICES`. -/
inductive InterviewMode where
  | in_person | phone | video
deriving DecidableEq, Repr

/-- `Interview.STATUS_CHOICES`. -/
inductive InterviewStatus where
  | scheduled | rescheduled | completed | canceled
deriving DecidableEq, Repr

/-- `jobs.models.Interview`. -/
structure Interview where
  id : Nat
  application : Nat
  created_by : Nat
  scheduled_at : Nat
  mode : InterviewMode
  location : String
  meet_link : String
  notes : String
  status : InterviewStatus
  invite_sent : Bool
deriving DecidableEq, Repr

/-- The whole relational store. -/
structure DB where
  users : List UserRec
  profiles : List Profile
  jobs : List Job
  applications : List Application
  interviews : List Interview
deriving DecidableEq, Repr

/-- Python `str.strip()` whitespace set (ASCII part). -/
def isPySpace (c : Char) : Bool :=
  c = ' ' || c = '\t' || c = '\n' || c = '\r' || c = '\x0b' || c = '\x0c'

/-- Python `str.strip()`: drop leading and trailing whitespace. -/
def pyStrip (s : String) : String :=
  String.mk (((s.toList.dropWhile isPySpace).reverse.dropWhile isPySpace).reverse)

/-- Lower-cased character list of a string, for case-insensitive matching. -/
def lowerChars (s : String) : List Char :=
  s.toList.map Char.toLower

/-- Django `__icontains`: case-insensitive substring containment. -/
def icontains (hay pat : String) : Prop :=
  List.IsInfix (lowerChars pat) (lowerChars hay)

instance (hay pat : String) : Decidable (icontains hay pat) :=
  List.decidableInfix _ _

/-- `ApplicationForm.MAX_UPLOAD_SIZE = 5 * 1024 * 1024`. -/
def MAX_UPLOAD_SIZE : Nat := 5 * 1024 * 1024

/-- An uploaded file as the form sees it: original name and byte size. -/
structure ResumeFile where
  name : String
  size : Nat
deriving DecidableEq, Repr

/-- The data bound to `ApplicationForm` (`resume`, `cover_letter`). -/
structure ApplicationFormData where
  resume : Option ResumeFile
  cover_letter : String
deriving DecidableEq, Repr

/-- The file extension as Django's `FileExtensionValidator` computes it:
`Path(name).suffix[1:].lower()` — the part after the last dot, provided that
dot is neither the first nor the last character of the name; else empty. -/
def fileExt (name : String) : String :=
  let cs := name.toList
  let n := cs.length
  match (cs.reverse.findIdx? (fun c => c = '.')) with
  | none => ""
  | some ridx =>
    let i := n - 1 - ridx
    if 0 < i ∧ i < n - 1 then String.mk ((cs.drop (i + 1)).map Char.toLower) else ""

/-- `FileExtensionValidator(allowed_extensions=["pdf","doc","docx"])`. -/
def allowedExtensions : List String := ["pdf", "doc", "docx"]

/-- Combined resume validation: field requiredness and the model's
`FileExtensionValidator`, then `ApplicationForm.clean_resume` (missing file,
size over `MAX_UPLOAD_SIZE`).  `true` iff no validation error is raised. -/
def validResume : Option ResumeFile → Bool
  | none => false
  | some f => decide (fileExt f.name ∈ allowedExtensions) && decide (f.size ≤ MAX_UPLOAD_SIZE)

/-- Outcome tags of `ApplyJobView` (dispatch + form_valid). -/
inductive ApplyResult where
  | notFound | alreadyApplied | employerRejected | invalidForm | created
deriving DecidableEq, Repr

/-- `resume_upload_to`: `f"resumes/user_{instance.applicant.id}/{filename}"`. -/
def resumeUploadTo (applicantId : Nat) (filename : String) : String :=
  "resumes/user_" ++ toString applicantId ++ "/" ++ filename

/-- `ApplyJobView`: load the job (404 if absent); redirect with a warning if an
Application for (job, user) already exists; reject employers (a missing Profile
lets the request proceed); then validate the form and create the Application
with status `applied`.  Email sending never changes the store. -/
def applyJob (db : DB) (u : UserRec) (jobId : Nat) (form : ApplicationFormData)
    (now : Nat) : ApplyResult × DB :=
  match db.jobs.find? (fun j => j.id == jobId) with
  | none => (.notFound, db)
  | some _ =>
    if db.applications.any (fun a => a.job == jobId && a.applicant == u.id) then
      (.alreadyApplied, db)
    else
      let employerBlocked :=
        match db.profiles.find? (fun p => p.user == u.id) with
        | some p => p.is_employer
        | none => false
      if employerBlocked then (.employerRejected, db)
      else if validResume form.resume then
        match form.resume with
        | some f =>
          let app : Application :=
            { id := db.applications.length
              job := jobId
              applicant := u.id
              resumeName := resumeUploadTo u.id f.name
              cover_letter := form.cover_letter
              status := .applied
              applied_at := now
              updated_at := now }
          (.created, { db with applications := db.applications ++ [app] })
        | none => (.invalidForm, db)
      else (.invalidForm, db)

/-- The one-application-per-(job, applicant) invariant that
`Application.Meta.unique_together = ("job", "applicant")` enforces. -/
def pairUnique (db : DB) : Prop :=
  (db.applications.map (fun a => (a.job, a.applicant))).Nodup

instance (db : DB) : Decidable (pairUnique db) := by
  unfold pairUnique
  exact List.nodupDecidable _

/-- The data bound to `JobForm` (`title`, `company`, `description`, `location`). -/
structure JobFormData where
  title : String
  company : String
  description : String
  location : String
deriving DecidableEq, Repr

/-- Outcome tags of `JobCreateView.dispatch`/`form_valid`: the two refusal
messages ("Only employer accounts can post jobs." when the profile exists and
is not an employer, "Your account is not authorised to post jobs." when the
profile lookup raises) and success. -/
inductive CreateJobResult where
  | refusedNotEmployer | refusedNoProfile | created
deriving DecidableEq, Repr

/-- `JobCreateView`: a missing Profile or a non-employer Profile redirects away
with an error and mutates nothing; otherwise the Job is created with
`poster = request.user`. -/
def createJob (db : DB) (u : UserRec) (f : JobFormData) (now : Nat) :
    CreateJobResult × DB :=
  match db.profiles.find? (fun p => p.user == u.id) with
  | none => (.refusedNoProfile, db)
  | some p =>
    if p.is_employer then
      let job : Job :=
        { id := db.jobs.length
          poster := u.id
          title := f.title
          company := f.company
          description := f.description
          location := f.location
          created_at := now }
      (.created, { db with jobs := db.jobs ++ [job] })
    else (.refusedNotEmployer, db)

/-- Outcome tags of `WithdrawApplicationView.post`. -/
inductive WithdrawResult where
  | notFound | withdrawn
deriving DecidableEq, Repr

/-- `WithdrawApplicationView.post`:
`get_object_or_404(Application, pk=pk, applicant=request.user)` — an
application that is not the actor's own is a 404 and nothing changes;
otherwise `status` is overwritten with `withdrawn` and the row saved
(`auto_now` refreshes `updated_at`). -/
def withdrawApplication (db : DB) (u : UserRec) (pk : Nat) (now : Nat) :
    WithdrawResult × DB :=
  match db.applications.find? (fun a => a.id == pk && a.applicant == u.id) with
  | none => (.notFound, db)
  | some _ =>
    (.withdrawn,
      { db with
        applications := db.applications.map (fun a =>
          if a.id == pk && a.applicant == u.id then
            { a with status := .withdrawn, updated_at := now }
          else a) })

/-- Outcome tags of `ShortlistApplicationView.post`. -/
inductive ShortlistResult where
  | notFound | forbidden | shortlisted
deriving DecidableEq, Repr

/-- `ShortlistApplicationView.post`: load the application (404 if absent);
refuse when `app.job.poster != request.user` with nothing changed; else set
`status = STATUS_SHORTLIST` and save `status`/`updated_at`.  The candidate
email is best-effort and never changes the store. -/
def shortlistApplication (db : DB) (u : UserRec) (pk : Nat) (now : Nat) :
    ShortlistResult × DB :=
  match db.applications.find? (fun a => a.id == pk) with
  | none => (.notFound, db)
  | some a =>
    match db.jobs.find? (fun j => j.id == a.job) with
    | none => (.notFound, db)
    | some job =>
      if job.poster == u.id then
        (.shortlisted,
          { db with
            applications := db.applications.map (fun b =>
              if b.id == pk then
                { b with status := .shortlisted, updated_at := now }
              else b) })
      else (.forbidden, db)

/-- What happened to one `send_mail` call of `InterviewCreateView.form_valid`:
never attempted (blank address, or an earlier call in the same `try` raised),
attempted and delivered, or attempted and raised. -/
inductive DispatchOutcome where
  | skipped | sent | failed
deriving DecidableEq, Repr

/-- The data bound to `InterviewForm`. -/
structure InterviewFormData where
  scheduled_at : Nat
  mode : InterviewMode
  location : String
  meet_link : String
  notes : String
deriving DecidableEq, Repr

/-- Outcome tags of `InterviewCreateView`. -/
inductive ScheduleResult where
  | notFound | forbidden | created
deriving DecidableEq, Repr

/-- Full observable result of `InterviewCreateView`: the handler outcome, the
new store, and what happened to the two notification dispatches. -/
structure ScheduleOutcome where
  result : ScheduleResult
  db : DB
  applicantDispatch : DispatchOutcome
  employerDispatch : DispatchOutcome
deriving Repr

/-- Email address of a user id as the views read it (`user.email or ""`,
then `.strip()` where the view strips). -/
def userEmail (db : DB) (uid : Nat) : String :=
  ((db.users.find? (fun w => w.id == uid)).map (fun w => w.email)).getD ""

/-- `InterviewCreateView`: `dispatch` loads the application (404 if absent)
and refuses any actor other than `application.job.poster`; `form_valid` saves
the Interview (status `scheduled`, `invite_sent` defaulting to false), then in
one `try` block sends the applicant email (if the address is non-blank) and
the employer email (if non-blank) and sets `invite_sent = True`; any raising
`send_mail` jumps to `except`, leaving `invite_sent` false and skipping the
remaining send.  `env.1`/`env.2` say whether the applicant/employer send
succeeds if attempted. -/
def scheduleInterview (db : DB) (u : UserRec) (applicationPk : Nat)
    (f : InterviewFormData) (env : Bool × Bool) : ScheduleOutcome :=
  match db.applications.find? (fun a => a.id == applicationPk) with
  | none => ⟨.notFound, db, .skipped, .skipped⟩
  | some a =>
    match db.jobs.find? (fun j => j.id == a.job) with
    | none => ⟨.notFound, db, .skipped, .skipped⟩
    | some job =>
      if job.poster == u.id then
        let applicantEmail := pyStrip (userEmail db a.applicant)
        let employerEmail := pyStrip (userEmail db job.poster)
        let o1 : DispatchOutcome :=
          if applicantEmail ≠ "" then (if env.1 then .sent else .failed)
          else .skipped
        let o2 : DispatchOutcome :=
          if o1 = .failed then .skipped
          else if employerEmail ≠ "" then (if env.2 then .sent else .failed)
          else .skipped
        let itv : Interview :=
          { id := db.interviews.length
            application := applicationPk
            created_by := u.id
            scheduled_at := f.scheduled_at
            mode := f.mode
            location := f.location
            meet_link := f.meet_link
            notes := f.notes
            status := .scheduled
            invite_sent := o1 ≠ DispatchOutcome.failed && o2 ≠ DispatchOutcome.failed }
        ⟨.created, { db with interviews := db.interviews ++ [itv] }, o1, o2⟩
      else ⟨.forbidden, db, .skipped, .skipped⟩

/-- The shared Profile-provisioning step of `RegisterForm.save` and
`RegisterView.form_valid`: `Profile.objects.get_or_create(user=user)`, then
`if is_employer: profile.is_employer = True`, then
`if company_name: profile.company_name = company_name` (with `company_name`
already stripped), then `profile.save()`. -/
def profileUpsert (profiles : List Profile) (uid : Nat) (emp : Bool)
    (companyInput : String) : List Profile :=
  let cn := pyStrip companyInput
  match profiles.find? (fun p => p.user == uid) with
  | some _ =>
    profiles.map (fun p =>
      if p.user == uid then
        let p1 := if emp then { p with is_employer := true } else p
        if cn ≠ "" then { p1 with company_name := cn } else p1
      else p)
  | none =>
    let base : Profile := { user := uid, is_employer := false, company_name := "" }
    let base1 := if emp then { base with is_employer := true } else base
    let base2 := if cn ≠ "" then { base1 with company_name := cn } else base1
    profiles ++ [base2]

/-- The registration path runs the provisioning twice: once inside
`RegisterForm.save` and once more in `RegisterView.form_valid`. -/
def registerProvision (profiles : List Profile) (uid : Nat) (emp : Bool)
    (companyInput : String) : List Profile :=
  profileUpsert (profileUpsert profiles uid emp companyInput) uid emp companyInput

/-- Keyword match of `JobListView.get_queryset`:
`Q(title__icontains=q) | Q(description__icontains=q) | Q(company__icontains=q)`. -/
def jobMatchesQ (j : Job) (q : String) : Bool :=
  decide (icontains j.title q) || decide (icontains j.description q) ||
    decide (icontains j.company q)

/-- `JobListView.get_queryset`: order by `-created_at`, strip the raw `q` and
`location` parameters, filter by keyword when `q` is non-empty, and by
location when `location` is non-empty. -/
def jobListQueryset (jobs : List Job) (rawQ rawLocation : String) : List Job :=
  let base := List.insertionSort (fun a b : Job => b.created_at ≤ a.created_at) jobs
  let q := pyStrip rawQ
  let location := pyStrip rawLocation
  let afterQ := if q ≠ "" then base.filter (fun j => jobMatchesQ j q) else base
  if location ≠ "" then afterQ.filter (fun j => decide (icontains j.location location))
  else afterQ

/-- The job-list request handler: a read-only view of the store. -/
def jobListHandler (db : DB) (rawQ rawLocation : String) : List Job × DB :=
  (jobListQueryset db.jobs rawQ rawLocation, db)

/-- The profile mutation both registration steps perform on an existing row:
employer flag only ever raised, company name only overwritten by a non-blank
trimmed input. -/
def updatedProfile (emp : Bool) (cn : String) (q : Profile) : Profile :=
  ⟨q.user, emp || q.is_employer,
    if pyStrip cn ≠ "" then pyStrip cn else q.company_name⟩

instance : IsTotal Job (fun a b => b.created_at ≤ a.created_at) :=
  ⟨fun a b => Nat.le_total b.created_at a.created_at⟩

instance : IsTrans Job (fun a b => b.created_at ≤ a.created_at) :=
  ⟨fun _ _ _ hab hbc => Nat.le_trans hbc hab⟩

/-! ### Sample records used by the closed witnesses -/

/-- An employer user who posts the sample job. -/
def alice : UserRec := ⟨1, "boss@x.com"⟩

/-- A candidate user who applies to the sample job. -/
def bob : UserRec := ⟨2, "cand@x.com"⟩

/-- A third user, neither poster nor applicant of the sample records. -/
def carol : UserRec := ⟨3, "other@x.com"⟩

/-- A job posted by `alice`. -/
def sampleJob : Job := ⟨10, 1, "Backend Engineer", "Acme", "Build APIs", "Chennai", 5⟩

/-- `bob`'s application to `sampleJob`. -/
def sampleApp : Application := ⟨20, 10, 2, "resumes/user_2/cv.pdf", "", .applied, 6, 6⟩

/-- A small store: three users, one employer profile, one job, one application. -/
def sampleDB : DB :=
  ⟨[alice, bob, carol], [⟨1, true, "Acme"⟩], [sampleJob], [sampleApp], []⟩

/-- A store like `sampleDB` but where neither the poster nor the applicant
has an email address on file. -/
def noEmailDB : DB :=
  ⟨[⟨1, ""⟩, ⟨2, ""⟩], [⟨1, true, "Acme"⟩], [sampleJob],
    [⟨20, 10, 2, "resumes/user_2/cv.pdf", "", .applied, 6, 6⟩], []⟩

/-- A store whose only user has no Profile row at all. -/
def noProfDB : DB := ⟨[⟨4, ""⟩], [], [sampleJob], [], []⟩

/-! ### Helper lemmas about conditional row updates -/

/-- `find?` through a row update that touches exactly the rows the predicate
selects, when the update preserves the predicate. -/
theorem find?_map_ite {α : Type} (p : α → Bool) (g : α → α)
    (hg : ∀ b, p (g b) = p b) :
    ∀ {l : List α} {a : α}, l.find? p = some a →
      (l.map (fun b => if p b then g b else b)).find? p = some (g a) := by
  intro l
  induction l with
  | nil => intro a h; simp at h
  | cons c cs ih =>
    intro a h
    by_cases hc : p c = true
    · rw [List.find?_cons_of_pos cs hc] at h
      injection h with h
      subst h
      simp only [List.map_cons, hc, if_true]
      exact List.find?_cons_of_pos _ (by rw [hg]; exact hc)
    · rw [List.find?_cons_of_neg cs hc] at h
      have hc' : p c = false := by simpa using hc
      simp only [List.map_cons, hc', Bool.false_eq_true, if_false]
      rw [List.find?_cons_of_neg _ hc]
      exact ih h

/-- A row the predicate does not select survives a conditional update
unchanged. -/
theorem mem_map_ite_of_neg {α : Type} (p : α → Bool) (g : α → α) {l : List α}
    {b : α} (hb : b ∈ l) (hpb : p b = false) :
    b ∈ l.map (fun x => if p x then g x else x) :=
  List.mem_map.mpr ⟨b, hb, by simp [hpb]⟩

/-- After a conditional update, every row the predicate selects is an updated
row, so it satisfies anything the update establishes. -/
theorem prop_of_mem_map_ite {α : Type} (p : α → Bool) (g : α → α) (Q : α → Prop)
    (hQ : ∀ c, p c = true → Q (g c)) :
    ∀ {l : List α} {b : α}, b ∈ l.map (fun x => if p x then g x else x) →
      p b = true → Q b := by
  intro l b hmem hpb
  obtain ⟨c, hc, hcb⟩ := List.mem_map.mp hmem
  by_cases hpc : p c = true
  · rw [if_pos hpc] at hcb
    subst hcb
    exact hQ c hpc
  · rw [if_neg hpc] at hcb
    subst hcb
    exact absurd hpb hpc

/-- A conditional row update is idempotent when the update itself is and it
preserves the predicate. -/
theorem map_ite_idem {α : Type} (p : α → Bool) (g : α → α)
    (hg : ∀ b, p (g b) = p b) (hgg : ∀ b, g (g b) = g b) (l : List α) :
    (l.map (fun b => if p b then g b else b)).map (fun b => if p b then g b else b) =
      l.map (fun b => if p b then g b else b) := by
  rw [List.map_map]
  apply List.map_congr_left
  intro b _
  show (fun x => if p x then g x else x) ((fun x => if p x then g x else x) b) = _
  by_cases hpb : p b = true
  · simp [hpb, hg, hgg]
  · have hpb' : p b = false := by simpa using hpb
    simp [hpb']

/-! ### The verified properties -/

/-- Appending an application whose (job, applicant) pair is fresh preserves
pair uniqueness. -/
theorem pairUnique_append (db : DB) (app : Application) (hpu : pairUnique db)
    (hnew : ∀ a ∈ db.applications, ¬(a.job = app.job ∧ a.applicant = app.applicant)) :
    pairUnique { db with applications := db.applications ++ [app] } := by
  simp only [pairUnique, List.map_append, List.map_cons, List.map_nil]
  rw [List.nodup_append]
  refine ⟨hpu, List.nodup_singleton _, ?_⟩
  intro x hx hx'
  simp only [List.mem_singleton] at hx'
  subst hx'
  obtain ⟨a, ha, hpa⟩ := List.mem_map.mp hx
  exact hnew a ha ⟨congrArg Prod.fst hpa, congrArg Prod.snd hpa⟩

/-- C2: for every (job, applicant) pair at most one Application exists — the
apply handler preserves uniqueness of (job, applicant) pairs, and a second
submission attempt by the same user for the same (existing) job returns the
"already applied" outcome and creates no record: the store is untouched. -/
theorem applyJob_no_duplicate (db : DB) (u : UserRec) (jobId : Nat)
    (form : ApplicationFormData) (now : Nat) :
    (pairUnique db → pairUnique (applyJob db u jobId form now).2) ∧
    ((db.jobs.find? (fun j => j.id == jobId)).isSome →
      (∃ a ∈ db.applications, a.job = jobId ∧ a.applicant = u.id) →
      applyJob db u jobId form now = (ApplyResult.alreadyApplied, db)) := by
  constructor
  · intro hpu
    have hfresh : db.applications.any
          (fun a => a.job == jobId && a.applicant == u.id) = false →
        ∀ a ∈ db.applications, ¬(a.job = jobId ∧ a.applicant = u.id) := by
      intro hany a ha h12
      rw [← Bool.not_eq_true, List.any_eq_true] at hany
      exact hany ⟨a, ha, by simp [h12.1, h12.2]⟩
    rcases hfind : db.jobs.find? (fun j => j.id == jobId) with _ | job
    · simpa [applyJob, hfind] using hpu
    · cases hany : db.applications.any (fun a => a.job == jobId && a.applicant == u.id)
      · rcases hprof : db.profiles.find? (fun p => p.user == u.id) with _ | p
        · rcases hres : form.resume with _ | f
          · simpa [applyJob, hfind, hany, hprof, hres, validResume] using hpu
          · by_cases hvr : validResume (some f) = true
            · simp only [applyJob, hfind, hany, hprof, hres, hvr, Bool.false_eq_true,
                if_false, if_true]
              exact pairUnique_append _ _ hpu (hfresh hany)
            · rw [Bool.not_eq_true] at hvr
              simpa [applyJob, hfind, hany, hprof, hres, hvr] using hpu
        · by_cases hemp : p.is_employer = true
          · simpa [applyJob, hfind, hany, hprof, hemp] using hpu
          · rw [Bool.not_eq_true] at hemp
            rcases hres : form.resume with _ | f
            · simpa [applyJob, hfind, hany, hprof, hemp, hres, validResume] using hpu
            · by_cases hvr : validResume (some f) = true
              · simp only [applyJob, hfind, hany, hprof, hemp, hres, hvr,
                  Bool.false_eq_true, if_false, if_true]
                exact pairUnique_append _ _ hpu (hfresh hany)
              · rw [Bool.not_eq_true] at hvr
                simpa [applyJob, hfind, hany, hprof, hres, hemp, hvr] using hpu
      · simpa [applyJob, hfind, hany] using hpu
  · intro hj hex
    obtain ⟨job, hjob⟩ := Option.isSome_iff_exists.mp hj
    have hany : db.applications.any
        (fun a => a.job == jobId && a.applicant == u.id) = true := by
      rw [List.any_eq_true]
      obtain ⟨a, ha, h1, h2⟩ := hex
      exact ⟨a, ha, by simp [h1, h2]⟩
    simp [applyJob, hjob, hany]

/-- Closed witness for `applyJob_no_duplicate`: a store holding one
application; a second attempt by the same user for the same job is rejected. -/
theorem applyJob_no_duplicate_witness :
    pairUnique
        { users := [⟨1, "boss@x.com"⟩, ⟨2, "cand@x.com"⟩]
          profiles := [⟨1, true, "Acme"⟩]
          jobs := [⟨10, 1, "Backend Engineer", "Acme", "desc", "Chennai", 5⟩]
          applications := [⟨20, 10, 2, "resumes/user_2/cv.pdf", "", .applied, 6, 6⟩]
          interviews := [] } ∧
    applyJob
        { users := [⟨1, "boss@x.com"⟩, ⟨2, "cand@x.com"⟩]
          profiles := [⟨1, true, "Acme"⟩]
          jobs := [⟨10, 1, "Backend Engineer", "Acme", "desc", "Chennai", 5⟩]
          applications := [⟨20, 10, 2, "resumes/user_2/cv.pdf", "", .applied, 6, 6⟩]
          interviews := [] }
        ⟨2, "cand@x.com"⟩ 10 ⟨some ⟨"cv.pdf", 100⟩, ""⟩ 7 =
      (ApplyResult.alreadyApplied,
        { users := [⟨1, "boss@x.com"⟩, ⟨2, "cand@x.com"⟩]
          profiles := [⟨1, true, "Acme"⟩]
          jobs := [⟨10, 1, "Backend Engineer", "Acme", "desc", "Chennai", 5⟩]
          applications := [⟨20, 10, 2, "resumes/user_2/cv.pdf", "", .applied, 6, 6⟩]
          interviews := [] }) := by
  refine ⟨by decide, ?_⟩
  exact (applyJob_no_duplicate _ ⟨2, "cand@x.com"⟩ 10 ⟨some ⟨"cv.pdf", 100⟩, ""⟩ 7).2
    (by decide) ⟨⟨20, 10, 2, "resumes/user_2/cv.pdf", "", .applied, 6, 6⟩, by decide, by decide, by decide⟩

/-- C3: a user whose Profile has `is_employer = true` never gets an
Application created by an apply attempt, whatever the job and form data: the
outcome is never `created` and the store is unchanged. -/
theorem applyJob_employer_always_rejected (db : DB) (u : UserRec) (jobId : Nat)
    (form : ApplicationFormData) (now : Nat) (p : Profile)
    (hp : db.profiles.find? (fun q => q.user == u.id) = some p)
    (hemp : p.is_employer = true) :
    (applyJob db u jobId form now).1 ≠ ApplyResult.created ∧
    (applyJob db u jobId form now).2 = db := by
  unfold applyJob
  split
  · exact ⟨by simp, rfl⟩
  · split
    · exact ⟨by simp, rfl⟩
    · rw [hp]
      simp [hemp]

/-- Closed witness for `applyJob_employer_always_rejected`: an employer user
applying to an open job with a valid resume is still rejected. -/
theorem applyJob_employer_always_rejected_witness :
    (applyJob
        { users := [⟨1, "boss@x.com"⟩]
          profiles := [⟨1, true, "Acme"⟩]
          jobs := [⟨10, 1, "Backend Engineer", "Acme", "desc", "Chennai", 5⟩]
          applications := []
          interviews := [] }
        ⟨1, "boss@x.com"⟩ 10 ⟨some ⟨"cv.pdf", 100⟩, ""⟩ 7).1 ≠ ApplyResult.created ∧
    (applyJob
        { users := [⟨1, "boss@x.com"⟩]
          profiles := [⟨1, true, "Acme"⟩]
          jobs := [⟨10, 1, "Backend Engineer", "Acme", "desc", "Chennai", 5⟩]
          applications := []
          interviews := [] }
        ⟨1, "boss@x.com"⟩ 10 ⟨some ⟨"cv.pdf", 100⟩, ""⟩ 7).2 =
      { users := [⟨1, "boss@x.com"⟩]
        profiles := [⟨1, true, "Acme"⟩]
        jobs := [⟨10, 1, "Backend Engineer", "Acme", "desc", "Chennai", 5⟩]
        applications := []
        interviews := [] } :=
  applyJob_employer_always_rejected _ ⟨1, "boss@x.com"⟩ 10
    ⟨some ⟨"cv.pdf", 100⟩, ""⟩ 7 ⟨1, true, "Acme"⟩ (by decide) (by decide)

/-- C4: a missing resume, a resume over `MAX_UPLOAD_SIZE` bytes, or a filename
whose extension is not pdf/doc/docx fails validation, the outcome is never
`created`, and the store is unchanged; when the request survives the earlier
gates (job exists, no duplicate, not an employer) the outcome is exactly the
form-validation error. -/
theorem applyJob_invalid_resume_rejected (db : DB) (u : UserRec) (jobId : Nat)
    (form : ApplicationFormData) (now : Nat)
    (hbad : form.resume = none ∨
      ∃ f, form.resume = some f ∧
        (MAX_UPLOAD_SIZE < f.size ∨ fileExt f.name ∉ allowedExtensions)) :
    validResume form.resume = false ∧
    (applyJob db u jobId form now).1 ≠ ApplyResult.created ∧
    (applyJob db u jobId form now).2 = db := by
  have hv : validResume form.resume = false := by
    rcases hbad with h | ⟨f, hf, hcase⟩
    · rw [h]; rfl
    · rw [hf]
      unfold validResume
      rcases hcase with h1 | h2
      · simp [Nat.not_le.mpr h1]
      · simp [h2]
  refine ⟨hv, ?_⟩
  rcases hfind : db.jobs.find? (fun j => j.id == jobId) with _ | job
  · simp [applyJob, hfind]
  · cases hany : db.applications.any (fun a => a.job == jobId && a.applicant == u.id)
    · rcases hprof : db.profiles.find? (fun p => p.user == u.id) with _ | p
      · simp [applyJob, hfind, hany, hprof, hv]
      · by_cases hemp : p.is_employer = true
        · simp [applyJob, hfind, hany, hprof, hemp]
        · rw [Bool.not_eq_true] at hemp
          simp [applyJob, hfind, hany, hprof, hemp, hv]
    · simp [applyJob, hfind, hany]

/-- Closed witness for `applyJob_invalid_resume_rejected`: a 6 MB pdf upload
by an otherwise eligible applicant fails validation and creates no record. -/
theorem applyJob_invalid_resume_rejected_witness :
    validResume (some ⟨"cv.pdf", 6 * 1024 * 1024⟩) = false ∧
    (applyJob
        { users := [⟨1, "boss@x.com"⟩, ⟨2, "cand@x.com"⟩]
          profiles := [⟨1, true, "Acme"⟩]
          jobs := [⟨10, 1, "Backend Engineer", "Acme", "desc", "Chennai", 5⟩]
          applications := []
          interviews := [] }
        ⟨2, "cand@x.com"⟩ 10 ⟨some ⟨"cv.pdf", 6 * 1024 * 1024⟩, ""⟩ 7).1 ≠
      ApplyResult.created ∧
    (applyJob
        { users := [⟨1, "boss@x.com"⟩, ⟨2, "cand@x.com"⟩]
          profiles := [⟨1, true, "Acme"⟩]
          jobs := [⟨10, 1, "Backend Engineer", "Acme", "desc", "Chennai", 5⟩]
          applications := []
          interviews := [] }
        ⟨2, "cand@x.com"⟩ 10 ⟨some ⟨"cv.pdf", 6 * 1024 * 1024⟩, ""⟩ 7).2 =
      { users := [⟨1, "boss@x.com"⟩, ⟨2, "cand@x.com"⟩]
        profiles := [⟨1, true, "Acme"⟩]
        jobs := [⟨10, 1, "Backend Engineer", "Acme", "desc", "Chennai", 5⟩]
        applications := []
        interviews := [] } :=
  applyJob_invalid_resume_rejected _ ⟨2, "cand@x.com"⟩ 10
    ⟨some ⟨"cv.pdf", 6 * 1024 * 1024⟩, ""⟩ 7
    (Or.inr ⟨⟨"cv.pdf", 6 * 1024 * 1024⟩, rfl, Or.inl (by decide)⟩)

/-- C5: a shortlist request by anyone but the poster of the application's job
is refused with the whole store (in particular every field of the
application) unchanged; the poster's request sets the status to `shortlisted`
whatever it was before, touching only `status`/`updated_at` of that row. -/
theorem shortlist_poster_only (db : DB) (u : UserRec) (pk : Nat) (now : Nat)
    (a : Application) (job : Job)
    (ha : db.applications.find? (fun b => b.id == pk) = some a)
    (hj : db.jobs.find? (fun j => j.id == a.job) = some job) :
    (job.poster ≠ u.id →
      shortlistApplication db u pk now = (ShortlistResult.forbidden, db)) ∧
    (job.poster = u.id →
      (shortlistApplication db u pk now).1 = ShortlistResult.shortlisted ∧
      (shortlistApplication db u pk now).2.applications.find? (fun b => b.id == pk) =
        some { a with status := .shortlisted, updated_at := now } ∧
      (∀ b ∈ db.applications, b.id ≠ pk →
        b ∈ (shortlistApplication db u pk now).2.applications) ∧
      (shortlistApplication db u pk now).2.users = db.users ∧
      (shortlistApplication db u pk now).2.profiles = db.profiles ∧
      (shortlistApplication db u pk now).2.jobs = db.jobs ∧
      (shortlistApplication db u pk now).2.interviews = db.interviews) := by
  constructor
  · intro hne
    have hb : (job.poster == u.id) = false := by simp [hne]
    simp [shortlistApplication, ha, hj, hb]
  · intro hpost
    have hb : (job.poster == u.id) = true := by simp [hpost]
    have hred : shortlistApplication db u pk now =
        (.shortlisted,
          { db with
            applications := db.applications.map (fun b =>
              if b.id == pk then { b with status := .shortlisted, updated_at := now }
              else b) }) := by
      simp [shortlistApplication, ha, hj, hb]
    rw [hred]
    refine ⟨rfl, ?_, ?_, rfl, rfl, rfl, rfl⟩
    · exact find?_map_ite (fun b : Application => b.id == pk)
        (fun b => { b with status := AppStatus.shortlisted, updated_at := now })
        (fun b => rfl) ha
    · intro b hmem hbne
      exact mem_map_ite_of_neg _ _ hmem (by simp [hbne])

/-- Closed witness for `shortlist_poster_only`: `carol` cannot shortlist
`bob`'s application; `alice` (the poster) can, from status `applied`. -/
theorem shortlist_poster_only_witness :
    shortlistApplication sampleDB carol 20 8 = (ShortlistResult.forbidden, sampleDB) ∧
    (shortlistApplication sampleDB alice 20 8).1 = ShortlistResult.shortlisted ∧
    (shortlistApplication sampleDB alice 20 8).2.applications.find?
        (fun b => b.id == 20) =
      some { sampleApp with status := .shortlisted, updated_at := 8 } := by
  refine ⟨?_, ?_, ?_⟩
  · exact (shortlist_poster_only sampleDB carol 20 8 sampleApp sampleJob
      (by decide) (by decide)).1 (by decide)
  · exact ((shortlist_poster_only sampleDB alice 20 8 sampleApp sampleJob
      (by decide) (by decide)).2 (by decide)).1
  · exact ((shortlist_poster_only sampleDB alice 20 8 sampleApp sampleJob
      (by decide) (by decide)).2 (by decide)).2.1

/-- C6: withdrawing is owner-only (anyone else gets a 404 and the store is
untouched), always overwrites the status with `withdrawn` whatever it was,
and is idempotent: a second withdrawal succeeds again, changes nothing when
re-run at the same instant, and still leaves the status `withdrawn`. -/
theorem withdraw_owner_sets_withdrawn (db : DB) (u : UserRec) (pk now now2 : Nat) :
    ((∀ b ∈ db.applications, b.id = pk → b.applicant ≠ u.id) →
      withdrawApplication db u pk now = (WithdrawResult.notFound, db)) ∧
    (∀ a, db.applications.find? (fun b => b.id == pk && b.applicant == u.id) = some a →
      (withdrawApplication db u pk now).1 = WithdrawResult.withdrawn ∧
      (∀ b ∈ (withdrawApplication db u pk now).2.applications,
          b.id = pk → b.applicant = u.id → b.status = AppStatus.withdrawn) ∧
      withdrawApplication (withdrawApplication db u pk now).2 u pk now =
        (WithdrawResult.withdrawn, (withdrawApplication db u pk now).2) ∧
      (∀ b ∈ (withdrawApplication (withdrawApplication db u pk now).2 u pk now2).2.applications,
          b.id = pk → b.applicant = u.id → b.status = AppStatus.withdrawn)) := by
  constructor
  · intro h
    have hnone : db.applications.find?
        (fun b => b.id == pk && b.applicant == u.id) = none := by
      rw [List.find?_eq_none]
      intro b hb
      simp only [Bool.and_eq_true, beq_iff_eq, not_and]
      intro h1 h2
      exact h b hb h1 h2
    simp [withdrawApplication, hnone]
  · intro a ha
    have hred : withdrawApplication db u pk now =
        (.withdrawn,
          { db with
            applications := db.applications.map (fun b =>
              if b.id == pk && b.applicant == u.id then
                { b with status := .withdrawn, updated_at := now }
              else b) }) := by
      simp [withdrawApplication, ha]
    have ha2 : (db.applications.map (fun b =>
        if b.id == pk && b.applicant == u.id then
          { b with status := AppStatus.withdrawn, updated_at := now }
        else b)).find? (fun b => b.id == pk && b.applicant == u.id) =
        some { a with status := AppStatus.withdrawn, updated_at := now } :=
      find?_map_ite (fun b : Application => b.id == pk && b.applicant == u.id)
        (fun b => { b with status := AppStatus.withdrawn, updated_at := now })
        (fun b => rfl) ha
    have hidem := map_ite_idem (fun b : Application => b.id == pk && b.applicant == u.id)
      (fun b => { b with status := AppStatus.withdrawn, updated_at := now })
      (fun b => rfl) (fun b => rfl) db.applications
    refine ⟨by rw [hred], ?_, ?_, ?_⟩
    · rw [hred]
      intro b hmem h1 h2
      exact prop_of_mem_map_ite _ _ (fun c => c.status = AppStatus.withdrawn)
        (fun c _ => rfl) hmem (by simp [h1, h2])
    · rw [hred]
      simp only [withdrawApplication, ha2, hidem]
    · rw [hred]
      simp only [withdrawApplication, ha2]
      intro b hmem h1 h2
      exact prop_of_mem_map_ite _ _ (fun c => c.status = AppStatus.withdrawn)
        (fun c _ => rfl) hmem (by simp [h1, h2])

/-- Closed witness for `withdraw_owner_sets_withdrawn`: `carol` cannot withdraw
`bob`'s application; `bob` can, and doing it twice keeps status `withdrawn`. -/
theorem withdraw_owner_sets_withdrawn_witness :
    withdrawApplication sampleDB carol 20 8 = (WithdrawResult.notFound, sampleDB) ∧
    (withdrawApplication sampleDB bob 20 8).1 = WithdrawResult.withdrawn ∧
    withdrawApplication (withdrawApplication sampleDB bob 20 8).2 bob 20 8 =
      (WithdrawResult.withdrawn, (withdrawApplication sampleDB bob 20 8).2) := by
  refine ⟨?_, ?_, ?_⟩
  · exact (withdraw_owner_sets_withdrawn sampleDB carol 20 8 9).1 (by decide)
  · exact ((withdraw_owner_sets_withdrawn sampleDB bob 20 8 9).2 sampleApp (by decide)).1
  · exact ((withdraw_owner_sets_withdrawn sampleDB bob 20 8 9).2 sampleApp (by decide)).2.2.1

/-- C1 counterexample: in a store where neither party has an email address,
the poster schedules an interview, no notification is dispatched at all (both
outcomes are `skipped`, so no dispatch succeeded), and yet the persisted
Interview has `invite_sent = true` — refuting "invite_sent is set to true
only when both dispatches succeed". -/
theorem scheduleInterview_invite_sent_without_dispatch :
    (scheduleInterview noEmailDB ⟨1, ""⟩ 20 ⟨100, .video, "", "", "notes"⟩
        (true, true)).result = ScheduleResult.created ∧
    ((scheduleInterview noEmailDB ⟨1, ""⟩ 20 ⟨100, .video, "", "", "notes"⟩
        (true, true)).db.interviews.map (fun i => i.invite_sent)) = [true] ∧
    (scheduleInterview noEmailDB ⟨1, ""⟩ 20 ⟨100, .video, "", "", "notes"⟩
        (true, true)).applicantDispatch = DispatchOutcome.skipped ∧
    (scheduleInterview noEmailDB ⟨1, ""⟩ 20 ⟨100, .video, "", "", "notes"⟩
        (true, true)).employerDispatch = DispatchOutcome.skipped := by
  decide

/-- C1 (amended): a scheduling request by the job's poster always persists
the Interview with the submitted `scheduled_at`, `mode` and `notes`, whatever
happens to the notifications; `invite_sent` is true exactly when no attempted
dispatch failed — a dispatch to a blank address is skipped and does not block
the flag, and any dispatch failure leaves `invite_sent` false. -/
theorem scheduleInterview_persists_and_flags (db : DB) (u : UserRec) (pk : Nat)
    (f : InterviewFormData) (env : Bool × Bool) (a : Application) (job : Job)
    (ha : db.applications.find? (fun b => b.id == pk) = some a)
    (hj : db.jobs.find? (fun j => j.id == a.job) = some job)
    (hpost : job.poster = u.id) :
    (scheduleInterview db u pk f env).result = ScheduleResult.created ∧
    (scheduleInterview db u pk f env).db.interviews =
      db.interviews ++
        [⟨db.interviews.length, pk, u.id, f.scheduled_at, f.mode, f.location,
          f.meet_link, f.notes, InterviewStatus.scheduled,
          ((scheduleInterview db u pk f env).applicantDispatch ≠ DispatchOutcome.failed &&
           (scheduleInterview db u pk f env).employerDispatch ≠ DispatchOutcome.failed)⟩] ∧
    (((scheduleInterview db u pk f env).applicantDispatch = DispatchOutcome.failed ∨
      (scheduleInterview db u pk f env).employerDispatch = DispatchOutcome.failed) →
      ∀ itv ∈ (scheduleInterview db u pk f env).db.interviews,
        itv ∉ db.interviews → itv.invite_sent = false) ∧
    (scheduleInterview db u pk f env).db.applications = db.applications := by
  have hb : (job.poster == u.id) = true := by simp [hpost]
  have h1 : (scheduleInterview db u pk f env).result = ScheduleResult.created := by
    simp [scheduleInterview, ha, hj, hb]
  have h2 : (scheduleInterview db u pk f env).db.interviews =
      db.interviews ++
        [⟨db.interviews.length, pk, u.id, f.scheduled_at, f.mode, f.location,
          f.meet_link, f.notes, InterviewStatus.scheduled,
          ((scheduleInterview db u pk f env).applicantDispatch ≠ DispatchOutcome.failed &&
           (scheduleInterview db u pk f env).employerDispatch ≠ DispatchOutcome.failed)⟩] := by
    simp [scheduleInterview, ha, hj, hb]
  have h4 : (scheduleInterview db u pk f env).db.applications = db.applications := by
    simp [scheduleInterview, ha, hj, hb]
  refine ⟨h1, h2, ?_, h4⟩
  intro hfail itv hmem hnot
  rw [h2] at hmem
  rcases List.mem_append.mp hmem with h | h
  · exact absurd h hnot
  · simp only [List.mem_singleton] at h
    subst h
    rcases hfail with h | h <;> simp [h]

/-- Closed witness for `scheduleInterview_persists_and_flags`: `alice`
schedules an interview on `bob`'s application in `sampleDB`. -/
theorem scheduleInterview_persists_and_flags_witness :
    (scheduleInterview sampleDB alice 20 ⟨100, .video, "", "", "notes"⟩
        (true, true)).result = ScheduleResult.created :=
  (scheduleInterview_persists_and_flags sampleDB alice 20
    ⟨100, .video, "", "", "notes"⟩ (true, true) sampleApp sampleJob
    (by decide) (by decide) (by decide)).1

/-- C7: the job-list handler mutates nothing; a job is in the result exactly
when it is stored and matches the stripped keyword (against title OR
description OR company, case-insensitively; no constraint when blank) and the
stripped location (case-insensitively; no constraint when blank); and the
result is ordered by `created_at` descending. -/
theorem jobList_filters_and_sorts (db : DB) (rawQ rawLocation : String) :
    (jobListHandler db rawQ rawLocation).2 = db ∧
    (∀ j, j ∈ (jobListHandler db rawQ rawLocation).1 ↔
      j ∈ db.jobs ∧
      (pyStrip rawQ = "" ∨ icontains j.title (pyStrip rawQ) ∨
        icontains j.description (pyStrip rawQ) ∨ icontains j.company (pyStrip rawQ)) ∧
      (pyStrip rawLocation = "" ∨ icontains j.location (pyStrip rawLocation))) ∧
    List.Sorted (fun a b : Job => b.created_at ≤ a.created_at)
      (jobListHandler db rawQ rawLocation).1 := by
  have hsort : List.Sorted (fun a b : Job => b.created_at ≤ a.created_at)
      (List.insertionSort (fun a b : Job => b.created_at ≤ a.created_at) db.jobs) :=
    List.sorted_insertionSort _ _
  refine ⟨rfl, ?_, ?_⟩
  · intro j
    by_cases hq : pyStrip rawQ = "" <;> by_cases hl : pyStrip rawLocation = "" <;>
      simp [jobListHandler, jobListQueryset, hq, hl, List.mem_filter,
        (List.perm_insertionSort
          (fun a b : Job => b.created_at ≤ a.created_at) db.jobs).mem_iff,
        jobMatchesQ, decide_eq_true_eq, and_assoc, or_assoc, and_comm]
  · by_cases hq : pyStrip rawQ = "" <;> by_cases hl : pyStrip rawLocation = ""
    · show List.Sorted _ (jobListQueryset db.jobs rawQ rawLocation)
      simp only [jobListQueryset]
      rw [if_neg (not_not_intro hl), if_neg (not_not_intro hq)]
      exact hsort
    · show List.Sorted _ (jobListQueryset db.jobs rawQ rawLocation)
      simp only [jobListQueryset]
      rw [if_pos hl, if_neg (not_not_intro hq)]
      exact List.Pairwise.filter _ hsort
    · show List.Sorted _ (jobListQueryset db.jobs rawQ rawLocation)
      simp only [jobListQueryset]
      rw [if_neg (not_not_intro hl), if_pos hq]
      exact List.Pairwise.filter _ hsort
    · show List.Sorted _ (jobListQueryset db.jobs rawQ rawLocation)
      simp only [jobListQueryset]
      rw [if_pos hl, if_pos hq]
      exact List.Pairwise.filter _ (List.Pairwise.filter _ hsort)

/-- Closed witness for `jobList_filters_and_sorts`: the sample job matches the
padded keyword " Engineer " and location fragment "chen". -/
theorem jobList_filters_and_sorts_witness :
    sampleJob ∈ (jobListHandler sampleDB " Engineer " "chen").1 ↔
      sampleJob ∈ sampleDB.jobs ∧
      (pyStrip " Engineer " = "" ∨ icontains sampleJob.title (pyStrip " Engineer ") ∨
        icontains sampleJob.description (pyStrip " Engineer ") ∨
        icontains sampleJob.company (pyStrip " Engineer ")) ∧
      (pyStrip "chen" = "" ∨ icontains sampleJob.location (pyStrip "chen")) :=
  (jobList_filters_and_sorts sampleDB " Engineer " "chen").2.1 sampleJob

/-- `profileUpsert` on a user with no Profile appends one fresh row carrying
the employer flag and the trimmed company name. -/
theorem profileUpsert_of_not_found (profiles : List Profile) (uid : Nat)
    (emp : Bool) (cn : String)
    (h : profiles.find? (fun p => p.user == uid) = none) :
    profileUpsert profiles uid emp cn = profiles ++ [⟨uid, emp, pyStrip cn⟩] := by
  unfold profileUpsert
  rw [h]
  cases emp <;> by_cases hcn : pyStrip cn = "" <;> simp [hcn]

/-- `profileUpsert` on a user with an existing Profile rewrites exactly that
user's rows through `updatedProfile`. -/
theorem profileUpsert_of_found (profiles : List Profile) (uid : Nat)
    (emp : Bool) (cn : String) (p : Profile)
    (h : profiles.find? (fun q => q.user == uid) = some p) :
    profileUpsert profiles uid emp cn =
      profiles.map (fun q => if q.user == uid then updatedProfile emp cn q else q) := by
  unfold profileUpsert
  rw [h]
  apply List.map_congr_left
  intro q _
  by_cases hq : (q.user == uid) = true
  · rw [if_pos hq, if_pos hq]
    cases emp <;> by_cases hcn : pyStrip cn = "" <;> simp [updatedProfile, hcn]
  · rw [if_neg hq, if_neg hq]

/-- Applying the registration profile mutation twice is the same as once. -/
theorem updatedProfile_idem (emp : Bool) (cn : String) (q : Profile) :
    updatedProfile emp cn (updatedProfile emp cn q) = updatedProfile emp cn q := by
  cases emp <;> by_cases hcn : pyStrip cn = "" <;> simp [updatedProfile, hcn]

/-- The registration path (provisioning run twice) on a user with no Profile
creates exactly one fresh row. -/
theorem registerProvision_of_not_found (profiles : List Profile) (uid : Nat)
    (emp : Bool) (cn : String)
    (h : profiles.find? (fun p => p.user == uid) = none) :
    registerProvision profiles uid emp cn = profiles ++ [⟨uid, emp, pyStrip cn⟩] := by
  unfold registerProvision
  rw [profileUpsert_of_not_found profiles uid emp cn h]
  have hfind : (profiles ++ [(⟨uid, emp, pyStrip cn⟩ : Profile)]).find?
      (fun p => p.user == uid) = some ⟨uid, emp, pyStrip cn⟩ := by
    rw [List.find?_append, h]
    simp
  rw [profileUpsert_of_found _ _ _ _ _ hfind, List.map_append]
  have hnone := List.find?_eq_none.mp h
  have h1 : profiles.map
      (fun q => if q.user == uid then updatedProfile emp cn q else q) = profiles := by
    have hid : ∀ q ∈ profiles,
        (if q.user == uid then updatedProfile emp cn q else q) = q := by
      intro q hq
      exact if_neg (hnone q hq)
    rw [List.map_congr_left hid]
    simp
  rw [h1]
  have h2 : updatedProfile emp cn ⟨uid, emp, pyStrip cn⟩ = ⟨uid, emp, pyStrip cn⟩ := by
    cases emp <;> by_cases hcn : pyStrip cn = "" <;> simp [updatedProfile, hcn]
  simp [h2]

/-- The registration path on a user with an existing Profile updates that
user's rows in place through `updatedProfile` (no row added or removed). -/
theorem registerProvision_of_found (profiles : List Profile) (uid : Nat)
    (emp : Bool) (cn : String) (p : Profile)
    (h : profiles.find? (fun q => q.user == uid) = some p) :
    registerProvision profiles uid emp cn =
      profiles.map (fun q => if q.user == uid then updatedProfile emp cn q else q) := by
  unfold registerProvision
  rw [profileUpsert_of_found _ _ _ _ _ h]
  have hfind2 : (profiles.map
      (fun q => if q.user == uid then updatedProfile emp cn q else q)).find?
      (fun q => q.user == uid) = some (updatedProfile emp cn p) :=
    find?_map_ite (fun q : Profile => q.user == uid) (updatedProfile emp cn)
      (fun b => rfl) h
  rw [profileUpsert_of_found _ _ _ _ _ hfind2]
  exact map_ite_idem (fun q : Profile => q.user == uid) (updatedProfile emp cn)
    (fun b => rfl) (updatedProfile_idem emp cn) profiles

/-- C8: employer registration stores `is_employer = true` and the trimmed
company name on the user's Profile; an omitted company name leaves it blank;
a pre-existing Profile is reused and updated in place, never duplicated. -/
theorem register_employer_profile (profiles : List Profile) (uid : Nat)
    (cn : String) :
    (profiles.find? (fun p => p.user == uid) = none →
      registerProvision profiles uid true cn = profiles ++ [⟨uid, true, pyStrip cn⟩] ∧
      registerProvision profiles uid true "" = profiles ++ [⟨uid, true, ""⟩]) ∧
    (∀ p, profiles.find? (fun q => q.user == uid) = some p →
      (registerProvision profiles uid true cn).length = profiles.length ∧
      (registerProvision profiles uid true cn).find? (fun q => q.user == uid) =
        some (updatedProfile true cn p) ∧
      (updatedProfile true cn p).is_employer = true ∧
      (pyStrip cn ≠ "" → (updatedProfile true cn p).company_name = pyStrip cn)) := by
  constructor
  · intro h
    refine ⟨registerProvision_of_not_found _ _ _ _ h, ?_⟩
    have hblank : pyStrip "" = "" := by decide
    rw [registerProvision_of_not_found _ _ _ _ h, hblank]
  · intro p h
    have heq := registerProvision_of_found profiles uid true cn p h
    refine ⟨by rw [heq]; exact List.length_map _ _, ?_, by simp [updatedProfile], ?_⟩
    · rw [heq]
      exact find?_map_ite (fun q : Profile => q.user == uid) (updatedProfile true cn)
        (fun b => rfl) h
    · intro hcn
      simp [updatedProfile, hcn]

/-- Closed witness for `register_employer_profile`: a fresh employer
registration with padded company name "  Acme ", and one with no company. -/
theorem register_employer_profile_witness :
    registerProvision [] 5 true "  Acme " = [⟨5, true, "Acme"⟩] ∧
    registerProvision [] 5 true "" = [⟨5, true, ""⟩] := by
  have h := (register_employer_profile [] 5 "  Acme ").1 rfl
  refine ⟨?_, ?_⟩
  · rw [h.1]; decide
  · rw [h.2]
    rfl

/-- C10: the registration-style profile update never lowers the employer flag
and never erases a stored company name: with `is_employer = false` the flag
is unchanged (in particular a true flag stays true), and a blank or
whitespace-only company input keeps the stored company name. -/
theorem register_never_demotes (profiles : List Profile) (uid : Nat)
    (emp : Bool) (cn : String) (p : Profile)
    (hp : profiles.find? (fun q => q.user == uid) = some p) :
    (registerProvision profiles uid emp cn).find? (fun q => q.user == uid) =
      some (updatedProfile emp cn p) ∧
    (emp = false → (updatedProfile emp cn p).is_employer = p.is_employer) ∧
    (p.is_employer = true → (updatedProfile emp cn p).is_employer = true) ∧
    (pyStrip cn = "" → (updatedProfile emp cn p).company_name = p.company_name) := by
  refine ⟨?_, ?_, ?_, ?_⟩
  · rw [registerProvision_of_found _ _ _ _ _ hp]
    exact find?_map_ite (fun q : Profile => q.user == uid) (updatedProfile emp cn)
      (fun b => rfl) hp
  · intro h; simp [updatedProfile, h]
  · intro h; simp [updatedProfile, h]
  · intro h; simp [updatedProfile, h]

/-- Closed witness for `register_never_demotes`: an existing employer profile
with company "Zenith" survives a non-employer, whitespace-company update. -/
theorem register_never_demotes_witness :
    (registerProvision [⟨7, true, "Zenith"⟩] 7 false "   ").find?
        (fun q => q.user == 7) = some (updatedProfile false "   " ⟨7, true, "Zenith"⟩) ∧
    (updatedProfile false "   " ⟨7, true, "Zenith"⟩).is_employer = true ∧
    (updatedProfile false "   " ⟨7, true, "Zenith"⟩).company_name = "Zenith" := by
  have h := register_never_demotes [⟨7, true, "Zenith"⟩] 7 false "   "
    ⟨7, true, "Zenith"⟩ (by decide)
  exact ⟨h.1, h.2.2.1 rfl, h.2.2.2 (by decide)⟩

/-- C9: a user with no Profile row is refused when posting a job, but an
apply attempt is never blocked by the employer check: it proceeds to resume
validation, creating the Application exactly when the resume is valid. -/
theorem missing_profile_apply_vs_post (db : DB) (u : UserRec) (jobId : Nat)
    (form : ApplicationFormData) (now : Nat) (jf : JobFormData)
    (hp : db.profiles.find? (fun p => p.user == u.id) = none) :
    createJob db u jf now = (CreateJobResult.refusedNoProfile, db) ∧
    (applyJob db u jobId form now).1 ≠ ApplyResult.employerRejected ∧
    (∀ job, db.jobs.find? (fun j => j.id == jobId) = some job →
      db.applications.any (fun a => a.job == jobId && a.applicant == u.id) = false →
      ((validResume form.resume = true →
        (applyJob db u jobId form now).1 = ApplyResult.created) ∧
       (validResume form.resume = false →
        (applyJob db u jobId form now).1 = ApplyResult.invalidForm))) := by
  refine ⟨by simp [createJob, hp], ?_, ?_⟩
  · rcases hfind : db.jobs.find? (fun j => j.id == jobId) with _ | job
    · simp [applyJob, hfind]
    · cases hany : db.applications.any (fun a => a.job == jobId && a.applicant == u.id)
      · rcases hres : form.resume with _ | f
        · simp [applyJob, hfind, hany, hp, hres, validResume]
        · by_cases hvr : validResume (some f) = true
          · simp [applyJob, hfind, hany, hp, hres, hvr]
          · rw [Bool.not_eq_true] at hvr
            simp [applyJob, hfind, hany, hp, hres, hvr]
      · simp [applyJob, hfind, hany]
  · intro job hfind hany
    constructor
    · intro hvr
      rcases hres : form.resume with _ | f
      · rw [hres] at hvr
        exact absurd hvr (by simp [validResume])
      · rw [hres] at hvr
        simp [applyJob, hfind, hany, hp, hres, hvr]
    · intro hvr
      simp [applyJob, hfind, hany, hp, hvr]

/-- Closed witness for `missing_profile_apply_vs_post`: the profile-less user
cannot post a job but successfully applies with a valid resume. -/
theorem missing_profile_apply_vs_post_witness :
    createJob noProfDB ⟨4, ""⟩ ⟨"T", "C", "D", "L"⟩ 9 =
      (CreateJobResult.refusedNoProfile, noProfDB) ∧
    (applyJob noProfDB ⟨4, ""⟩ 10 ⟨some ⟨"cv.pdf", 100⟩, ""⟩ 9).1 =
      ApplyResult.created := by
  have h := missing_profile_apply_vs_post noProfDB ⟨4, ""⟩ 10
    ⟨some ⟨"cv.pdf", 100⟩, ""⟩ 9 ⟨"T", "C", "D", "L"⟩ rfl
  exact ⟨h.1, (h.2.2 sampleJob (by decide) (by decide)).1 (by decide)⟩

end JobPortal
